import Mathlib

/-!
Shallow embedding of the agent orchestration core of `mdw-tools/cli-ai-agent`
(file `main.go` of package main): conversation state, streaming response
assembly, tool-call dispatch with permission gating, and the agentic loop.

Display-only side effects (spinner, `fmt.Print*`, `log.*`) are omitted; all
state that the Go code threads through `Agent` and the loop locals is made
explicit.  Operator stdin reads are modelled as an explicit list of input
lines consumed in order; the nondeterministic iteration order of the Go map
`Agent.tools` is modelled as an explicit order parameter ranging over
permutations of the registered keys.
-/

namespace CliAiAgent

/-- Go `map[string]interface{}` argument payloads: the core never inspects the
values, so they are carried as opaque strings keyed by parameter name. -/
abbrev Args := List (String × String)

/-- Go struct `ToolFunction`: `Name`, `Description`, `Parameters` (an opaque
JSON-schema blob at this layer), `Arguments`. -/
structure ToolFunction where
  name : String
  description : String
  parameters : String
  arguments : Args
deriving DecidableEq, Repr

/-- Go struct `ToolCall`: `Type` and `Function`. -/
structure ToolCall where
  type : String
  function : ToolFunction
deriving DecidableEq, Repr

/-- Go struct `Message`: `Role`, `Content`, `Thinking`, `ToolCalls`. -/
structure Message where
  role : String
  content : String
  thinking : String
  toolCalls : List ToolCall
deriving DecidableEq, Repr

/-- Go struct `OllamaResponse`, restricted to the fields the decode loop
reads: `Message` and `Done`. -/
structure OllamaResponse where
  message : Message
  done : Bool
deriving DecidableEq, Repr

/-- The Go `Tool` interface: `Name`, `Description`, `Parameters`,
`RequiresPermission`, and `Execute`, whose Go result `(string, error)` is
`Except String String` (error message on the left). -/
structure Tool where
  name : String
  description : String
  parameters : String
  requiresPermission : Bool
  execute : Args → Except String String

/-- Field `Agent.tools` is a Go `map[string]Tool`; its key-value pairs are carried
as an association list (lookup ignores order; iteration order is supplied
separately where the Go code ranges over the map). -/
abbrev Registry := List (String × Tool)

/-- Method `Agent.RegisterTool`: `this.tools[tool.Name()] = tool` — overwrite the
binding for the tool's name if present, otherwise add it. -/
def registerTool (reg : Registry) (t : Tool) : Registry :=
  if reg.any (fun p => p.1 == t.name) then
    reg.map (fun p => if p.1 == t.name then (t.name, t) else p)
  else
    reg ++ [(t.name, t)]

/-- Map lookup `this.tools[toolName]`. -/
def resolveTool (reg : Registry) (n : String) : Option Tool :=
  (reg.find? (fun p => p.1 == n)).map (·.2)

/-- Method `Agent.getToolDefinitions`: ranges over the map `this.tools` and builds
one descriptor per tool.  `order` is the iteration order the Go runtime
chooses for the map range on this particular call (some permutation of the
registered keys — Go randomizes it per range statement). -/
def getToolDefinitions (reg : Registry) (order : List String) : List ToolCall :=
  order.filterMap fun n =>
    (resolveTool reg n).map fun t =>
      { type := "function"
        function := { name := t.name, description := t.description
                      parameters := t.parameters, arguments := [] } }

/-- Go `unicode`-lowering restricted to the ASCII range, as
`strings.ToLower` behaves on the inputs this CLI reads. -/
def toLowerChar (c : Char) : Char :=
  if 'A' ≤ c ∧ c ≤ 'Z' then Char.ofNat (c.toNat + 32) else c

/-- Go `strings.ToLower`, character by character. -/
def toLowerStr (s : String) : String :=
  ⟨s.data.map toLowerChar⟩

/-- The whitespace set `strings.TrimSpace` strips (ASCII portion of
`unicode.IsSpace`). -/
def isSpaceGo (c : Char) : Bool :=
  c == ' ' || c == '\t' || c == '\n' || c == '\x0b' || c == '\x0c' || c == '\r'

/-- Go `strings.TrimSpace`: drop leading and trailing whitespace. -/
def trimSpace (s : String) : String :=
  ⟨(s.data.dropWhile isSpaceGo).reverse.dropWhile isSpaceGo |>.reverse⟩

/-- Method `Agent.askPermission`, with the prompt display omitted: the decision
computed from the operator's raw input line,
`response := strings.TrimSpace(strings.ToLower(readInput()))`, granting on
`""`, `"y"`, or `"yes"`. -/
def askPermission (input : String) : Bool :=
  let response := trimSpace (toLowerStr input)
  response == "" || response == "y" || response == "yes"

/-- The zero value `var finalMessage Message`. -/
def emptyMessage : Message :=
  { role := "", content := "", thinking := "", toolCalls := [] }

/-- One iteration of the decode loop body on a parsed chunk: append
`Thinking` and `Content` when non-empty, overwrite `Role` when non-empty,
overwrite `ToolCalls` when non-empty. -/
def accumChunk (acc : Message) (c : OllamaResponse) : Message :=
  { role := if c.message.role ≠ "" then c.message.role else acc.role
    content := if c.message.content ≠ "" then acc.content ++ c.message.content
               else acc.content
    thinking := if c.message.thinking ≠ "" then acc.thinking ++ c.message.thinking
                else acc.thinking
    toolCalls := if c.message.toolCalls.length > 0 then c.message.toolCalls
                 else acc.toolCalls }

/-- One line delivered by the response-body scanner, classified by its JSON
parse outcome: empty (skipped), unparseable (logged and skipped), or a
well-formed chunk. -/
inductive StreamLine where
  | empty : StreamLine
  | malformed : StreamLine
  | chunk : OllamaResponse → StreamLine
deriving Repr

/-- The `for scanner.Scan()` decode loop: fold the lines into the
accumulator, stopping at the first chunk with `Done = true`.  Returns the
accumulated message and whether a `done` chunk was reached (if so, the
scanner is abandoned before any later read error could be observed). -/
def runStream : List StreamLine → Message → Message × Bool
  | [], acc => (acc, false)
  | .empty :: rest, acc => runStream rest acc
  | .malformed :: rest, acc => runStream rest acc
  | .chunk c :: rest, acc =>
    let acc' := accumChunk acc c
    if c.done then (acc', true) else runStream rest acc'

/-- Result of `tool.Execute(...)`; on error,
`result = fmt.Sprintf("Error: %v", err)`. -/
def execResult (t : Tool) (args : Args) : String :=
  match t.execute args with
  | .ok s => s
  | .error e => "Error: " ++ e

/-- A tool-role turn carrying a result (or captured error) text. -/
def toolTurn (content : String) : Message :=
  { role := "tool", content := content, thinking := "", toolCalls := [] }

/-- The tool-role turn appended on permission denial:
`fmt.Sprintf("Permission denied for %s", toolName)`. -/
def denialTurn (toolName : String) : Message :=
  toolTurn ("Permission denied for " ++ toolName)

/-- Everything the tool-dispatch loop of `processOneResponse` produces:
the tool-role turns appended (in order), the `Execute` calls actually made
(in order, for observing that denied invocations never run), the counters
`toolsExecuted` and `anyToolRequiredPermission`, and the operator input
lines not yet consumed by permission prompts. -/
structure ToolLoopResult where
  turns : List Message
  executed : List (String × Args)
  toolsExecuted : Nat
  anyToolRequiredPermission : Bool
  answers : List String
deriving Repr

/-- The `for _, toolCall := range finalMessage.ToolCalls` loop: resolve the
name (unknown names are logged and skipped, appending nothing); gate
permission-requiring tools on the next operator input line (a missing line
reads as `""`); on denial append the denial turn and skip execution; else
execute and append the result turn. -/
def processToolCalls (reg : Registry) : List ToolCall → List String → ToolLoopResult
  | [], answers =>
    { turns := [], executed := [], toolsExecuted := 0
      anyToolRequiredPermission := false, answers := answers }
  | tc :: rest, answers =>
    match resolveTool reg tc.function.name with
    | none => processToolCalls reg rest answers
    | some tool =>
      if tool.requiresPermission then
        if askPermission (answers.head?.getD "") then
          let r := processToolCalls reg rest answers.tail
          { turns := toolTurn (execResult tool tc.function.arguments) :: r.turns
            executed := (tc.function.name, tc.function.arguments) :: r.executed
            toolsExecuted := r.toolsExecuted + 1
            anyToolRequiredPermission := true
            answers := r.answers }
        else
          let r := processToolCalls reg rest answers.tail
          { turns := denialTurn tc.function.name :: r.turns
            executed := r.executed
            toolsExecuted := r.toolsExecuted
            anyToolRequiredPermission := true
            answers := r.answers }
      else
        let r := processToolCalls reg rest answers
        { turns := toolTurn (execResult tool tc.function.arguments) :: r.turns
          executed := (tc.function.name, tc.function.arguments) :: r.executed
          toolsExecuted := r.toolsExecuted + 1
          anyToolRequiredPermission := r.anyToolRequiredPermission
          answers := r.answers }

/-- The `Agent` state the loop mutates: the registry and the conversation. -/
structure Agent where
  tools : Registry
  conversation : List Message

/-- How one round-trip's interaction with the model endpoint goes:
`httpError` covers request-construction failure and `http.DefaultClient.Do`
failure (before any byte is read); `stream lines readErr` delivers the
scanned lines, with `readErr` the error `scanner.Err()` would report after
the lines are exhausted (`none` for clean end-of-stream). -/
inductive Transport where
  | httpError : String → Transport
  | stream : List StreamLine → Option String → Transport

/-- The outcome of `Agent.processOneResponse`: the updated agent,
`shouldContinue`, the returned `error`, and the `Execute` calls made. -/
structure StepResult where
  agent : Agent
  shouldContinue : Bool
  error : Option String
  executed : List (String × Args)

/-- Method `Agent.processOneResponse`: send the request; on transport failure
return the error with the conversation untouched.  Decode the stream; if
the stream ended without a `done` chunk and the scanner reports a read
error, return that error with the conversation untouched.  Otherwise append
the accumulated assistant message, run the tool-dispatch loop appending its
tool turns, and continue iff `toolsExecuted > 0 && !anyToolRequiredPermission`. -/
def processOneResponse (a : Agent) (t : Transport) (answers : List String) : StepResult :=
  match t with
  | .httpError e => { agent := a, shouldContinue := false, error := some e, executed := [] }
  | .stream lines readErr =>
    let fin := runStream lines emptyMessage
    let finalMessage := fin.1
    let sawDone := fin.2
    match readErr with
    | some e =>
      if sawDone then
        let r := processToolCalls a.tools finalMessage.toolCalls answers
        { agent := { a with conversation := a.conversation ++ finalMessage :: r.turns }
          shouldContinue := r.toolsExecuted > 0 && !r.anyToolRequiredPermission
          error := none
          executed := r.executed }
      else
        { agent := a, shouldContinue := false
          error := some ("error reading stream: " ++ e), executed := [] }
    | none =>
      let r := processToolCalls a.tools finalMessage.toolCalls answers
      { agent := { a with conversation := a.conversation ++ finalMessage :: r.turns }
        shouldContinue := r.toolsExecuted > 0 && !r.anyToolRequiredPermission
        error := none
        executed := r.executed }

/-- Constant `maxIterations := 10` in `Agent.ProcessMessage`. -/
def maxIterations : Nat := 10

/-- The user turn `ProcessMessage` appends before looping. -/
def userTurn (userMessage : String) : Message :=
  { role := "user", content := userMessage, thinking := "", toolCalls := [] }

/-- The bounded agentic loop of `ProcessMessage`.  `envs i` supplies the
transport behavior and operator permission answers of round `i`.  Returns
the final agent, the error `ProcessMessage` would return, and the number of
round-trips performed. -/
def runLoop (envs : Nat → Transport × List String) :
    Nat → Nat → Agent → Agent × Option String × Nat
  | _, 0, a => (a, none, 0)
  | i, remaining + 1, a =>
    match (processOneResponse a (envs i).1 (envs i).2).error with
    | some err => ((processOneResponse a (envs i).1 (envs i).2).agent, some err, 1)
    | none =>
      if (processOneResponse a (envs i).1 (envs i).2).shouldContinue then
        ((runLoop envs (i + 1) remaining (processOneResponse a (envs i).1 (envs i).2).agent).1,
         (runLoop envs (i + 1) remaining (processOneResponse a (envs i).1 (envs i).2).agent).2.1,
         (runLoop envs (i + 1) remaining (processOneResponse a (envs i).1 (envs i).2).agent).2.2 + 1)
      else
        ((processOneResponse a (envs i).1 (envs i).2).agent, none, 1)

/-- Method `Agent.ProcessMessage`: append the user turn, then run up to
`maxIterations` round-trips, stopping early when a round returns an error
or decides not to continue. -/
def ProcessMessage (a : Agent) (userMessage : String)
    (envs : Nat → Transport × List String) : Agent × Option String × Nat :=
  runLoop envs 0 maxIterations
    { a with conversation := a.conversation ++ [userTurn userMessage] }

/-- A fragment stream for the C3 witness: one not-done chunk, then the done
chunk, with role and tool-call noise interleaved. -/
def witChunk1 : OllamaResponse :=
  { message := { role := "assistant", content := "Hel", thinking := "mulling ", toolCalls := [] }
    done := false }

def witChunk2 : OllamaResponse :=
  { message := { role := "", content := "lo", thinking := "it over"
                 toolCalls := [{ type := "function"
                                 function := { name := "read_file", description := ""
                                               parameters := "", arguments := [] } }] }
    done := true }

/-- Spec-side description (following the spec's words in section 4.4 step 3,
with step 3a's unknown-tool rule) of the tool-role turns of one dispatch
round: for each invocation in model order, an unknown name appends no turn;
a permission-requiring tool appends a denial turn on refusal and its result
turn on approval; any other tool appends its result turn. -/
def specToolTurns (reg : Registry) : List ToolCall -> List String -> List Message
  | [], _ => []
  | tc :: rest, answers =>
    match resolveTool reg tc.function.name with
    | none => specToolTurns reg rest answers
    | some tool =>
      if tool.requiresPermission then
        if askPermission (answers.head?.getD "") then
          toolTurn (execResult tool tc.function.arguments) :: specToolTurns reg rest answers.tail
        else
          denialTurn tc.function.name :: specToolTurns reg rest answers.tail
      else
        toolTurn (execResult tool tc.function.arguments) :: specToolTurns reg rest answers

/-- Whether an invocation resolves to a permission-requiring tool. -/
def callNeedsPermission (reg : Registry) (tc : ToolCall) : Bool :=
  match resolveTool reg tc.function.name with
  | some tool => tool.requiresPermission
  | none => false

/-- Whether a transport delivers its whole stream with no read error. -/
def cleanTransport : Transport -> Bool
  | .stream _ none => true
  | _ => false

/-- A model-emitted invocation of a tool name absent from the registry. -/
def ghostCall : ToolCall :=
  { type := "function"
    function := { name := "ghost_tool", description := "", parameters := "", arguments := [] } }

/-- A response chunk whose assistant message carries only the unknown
invocation. -/
def ghostResp : OllamaResponse :=
  { message := { role := "assistant", content := "", thinking := "", toolCalls := [ghostCall] }
    done := true }

/-- A permission-requiring spy tool: succeeds if it is ever run. -/
def spyTool : Tool :=
  { name := "run_command", description := "Run a shell command.", parameters := ""
    requiresPermission := true, execute := fun _ => .ok "ran" }

def spyReg : Registry := [("run_command", spyTool)]

def spyCall : ToolCall :=
  { type := "function"
    function := { name := "run_command", description := "", parameters := ""
                  arguments := [("command", "rm -rf scratch")] } }

/-- A permissionless tool whose execution fails. -/
def failTool : Tool :=
  { name := "read_file", description := "Read a file.", parameters := ""
    requiresPermission := false, execute := fun _ => .error "file not found" }

def failReg : Registry := [("read_file", failTool)]

def failCall : ToolCall :=
  { type := "function"
    function := { name := "read_file", description := "", parameters := ""
                  arguments := [("path", "missing.txt")] } }

/-- Two tools registered through the real registration path, for observing
map-iteration order. -/
def alphaTool : Tool :=
  { name := "alpha", description := "first", parameters := "", requiresPermission := false
    execute := fun _ => .ok "" }

def betaTool : Tool :=
  { name := "beta", description := "second", parameters := "", requiresPermission := false
    execute := fun _ => .ok "" }

def twoToolReg : Registry := registerTool (registerTool [] alphaTool) betaTool

/-- A chunk of a stream that will be cut off by a read error before any
`done` fragment arrives. -/
def partialChunk : OllamaResponse :=
  { message := { role := "assistant", content := "par", thinking := "", toolCalls := [] }
    done := false }

/-! ## General helper lemmas -/

theorem str_ext (s t : String) (h : s.data = t.data) : s = t := by
  cases s; cases t; exact congrArg String.mk h

theorem str_join_cons (a : String) (l : List String) :
    String.join (a :: l) = a ++ String.join l := by
  apply str_ext; simp

theorem str_join_append (l₁ l₂ : List String) :
    String.join (l₁ ++ l₂) = String.join l₁ ++ String.join l₂ := by
  apply str_ext; simp

/-! ## Decoder lemmas -/

theorem accumChunk_content (acc : Message) (c : OllamaResponse) :
    (accumChunk acc c).content = acc.content ++ c.message.content := by
  unfold accumChunk
  by_cases h : c.message.content = ""
  · simp [h, String.append_empty]
  · simp [h]

theorem accumChunk_thinking (acc : Message) (c : OllamaResponse) :
    (accumChunk acc c).thinking = acc.thinking ++ c.message.thinking := by
  unfold accumChunk
  by_cases h : c.message.thinking = ""
  · simp [h, String.append_empty]
  · simp [h]

/-- Chunks with `done = false` are folded into the accumulator and the
decode loop keeps going. -/
theorem runStream_noDone (chunks : List OllamaResponse) (rest : List StreamLine)
    (acc : Message) (h : ∀ c ∈ chunks, c.done = false) :
    runStream (chunks.map StreamLine.chunk ++ rest) acc
      = runStream rest (chunks.foldl accumChunk acc) := by
  induction chunks generalizing acc with
  | nil => simp
  | cons c cs ih =>
    have hc : c.done = false := h c (by simp)
    simp only [List.map_cons, List.cons_append, runStream, hc, if_neg (by simp : ¬(false = true))]
    exact ih (accumChunk acc c) (fun x hx => h x (by simp [hx]))

theorem foldl_accum_content (chunks : List OllamaResponse) (acc : Message) :
    (chunks.foldl accumChunk acc).content
      = acc.content ++ String.join (chunks.map (fun c => c.message.content)) := by
  induction chunks generalizing acc with
  | nil => apply str_ext; simp
  | cons c cs ih =>
    simp only [List.foldl_cons, List.map_cons, str_join_cons]
    rw [ih, accumChunk_content]
    apply str_ext; simp

theorem foldl_accum_thinking (chunks : List OllamaResponse) (acc : Message) :
    (chunks.foldl accumChunk acc).thinking
      = acc.thinking ++ String.join (chunks.map (fun c => c.message.thinking)) := by
  induction chunks generalizing acc with
  | nil => apply str_ext; simp
  | cons c cs ih =>
    simp only [List.foldl_cons, List.map_cons, str_join_cons]
    rw [ih, accumChunk_thinking]
    apply str_ext; simp

/-- C3: for every sequence of streamed fragments whose only `done=true`
fragment is the last, the decoder terminates on that fragment, the
assembled visible text (`Content`) is the ordered concatenation of every
fragment's content field, and the assembled reasoning text (`Thinking`) is
the ordered concatenation of every fragment's thinking field, regardless of
the role/tool-call fields interleaved in the fragments. -/
theorem decoder_assembles_concatenation (body : List OllamaResponse) (last : OllamaResponse)
    (hbody : ∀ c ∈ body, c.done = false) (hlast : last.done = true) :
    (runStream ((body ++ [last]).map StreamLine.chunk) emptyMessage).2 = true ∧
    (runStream ((body ++ [last]).map StreamLine.chunk) emptyMessage).1.content
      = String.join ((body ++ [last]).map (fun c => c.message.content)) ∧
    (runStream ((body ++ [last]).map StreamLine.chunk) emptyMessage).1.thinking
      = String.join ((body ++ [last]).map (fun c => c.message.thinking)) := by
  have hrun : runStream ((body ++ [last]).map StreamLine.chunk) emptyMessage
      = (accumChunk (body.foldl accumChunk emptyMessage) last, true) := by
    rw [List.map_append, runStream_noDone body _ emptyMessage hbody]
    simp [runStream, hlast]
  refine ⟨by rw [hrun], ?_, ?_⟩
  · rw [hrun]
    simp only [accumChunk_content, foldl_accum_content, List.map_append, str_join_append]
    simp [emptyMessage, String.empty_append, str_join_cons]
    apply str_ext; simp
  · rw [hrun]
    simp only [accumChunk_thinking, foldl_accum_thinking, List.map_append, str_join_append]
    simp [emptyMessage, String.empty_append, str_join_cons]
    apply str_ext; simp

theorem decoder_assembles_concatenation_witness :
    (∀ c ∈ [witChunk1], c.done = false) ∧ witChunk2.done = true ∧
    ((runStream (([witChunk1] ++ [witChunk2]).map StreamLine.chunk) emptyMessage).2 = true ∧
     (runStream (([witChunk1] ++ [witChunk2]).map StreamLine.chunk) emptyMessage).1.content
       = String.join (([witChunk1] ++ [witChunk2]).map (fun c => c.message.content)) ∧
     (runStream (([witChunk1] ++ [witChunk2]).map StreamLine.chunk) emptyMessage).1.thinking
       = String.join (([witChunk1] ++ [witChunk2]).map (fun c => c.message.thinking))) :=
  ⟨by decide, by decide,
   decoder_assembles_concatenation [witChunk1] witChunk2 (by decide) (by decide)⟩

/-- C8: a fragment that fails to parse as JSON is skipped without aborting
the stream: deleting a malformed line anywhere in the stream leaves the
decoder's result — built from the well-formed fragments before and after
it — exactly unchanged. -/
theorem malformed_fragment_has_no_effect (xs ys : List StreamLine) (acc : Message) :
    runStream (xs ++ StreamLine.malformed :: ys) acc = runStream (xs ++ ys) acc := by
  induction xs generalizing acc with
  | nil => simp [runStream]
  | cons hd tl ih =>
    cases hd with
    | empty => simpa [runStream] using ih acc
    | malformed => simpa [runStream] using ih acc
    | chunk c =>
      by_cases hc : c.done = true
      · simp [runStream, hc]
      · simp only [List.cons_append, runStream, hc, if_neg hc]
        exact ih (accumChunk acc c)

/-! ## Tool-dispatch loop lemmas -/

theorem processToolCalls_toolsExecuted_eq (reg : Registry) (calls : List ToolCall)
    (answers : List String) :
    (processToolCalls reg calls answers).toolsExecuted
      = (processToolCalls reg calls answers).executed.length := by
  induction calls generalizing answers with
  | nil => rfl
  | cons tc rest ih =>
    unfold processToolCalls
    cases hres : resolveTool reg tc.function.name with
    | none => exact ih answers
    | some tool =>
      cases hp : tool.requiresPermission with
      | false => simp [hp, ih answers]
      | true =>
        cases ha : askPermission (answers.head?.getD "") with
        | false => simp [hp, ha, ih answers.tail]
        | true => simp [hp, ha, ih answers.tail]

theorem processToolCalls_anyPerm (reg : Registry) (calls : List ToolCall)
    (answers : List String) :
    (processToolCalls reg calls answers).anyToolRequiredPermission
      = calls.any (callNeedsPermission reg) := by
  induction calls generalizing answers with
  | nil => rfl
  | cons tc rest ih =>
    unfold processToolCalls
    cases hres : resolveTool reg tc.function.name with
    | none => simp [callNeedsPermission, hres, ih answers]
    | some tool =>
      cases hp : tool.requiresPermission with
      | false => simp [callNeedsPermission, hres, hp, ih answers]
      | true =>
        cases ha : askPermission (answers.head?.getD "") with
        | false => simp [callNeedsPermission, hres, hp, ha]
        | true => simp [callNeedsPermission, hres, hp, ha]

theorem processToolCalls_turns_eq_spec (reg : Registry) (calls : List ToolCall)
    (answers : List String) :
    (processToolCalls reg calls answers).turns = specToolTurns reg calls answers := by
  induction calls generalizing answers with
  | nil => rfl
  | cons tc rest ih =>
    unfold processToolCalls specToolTurns
    cases hres : resolveTool reg tc.function.name with
    | none => exact ih answers
    | some tool =>
      cases hp : tool.requiresPermission with
      | false => simp [hp, ih answers]
      | true =>
        cases ha : askPermission (answers.head?.getD "") with
        | false => simp [hp, ha, ih answers.tail]
        | true => simp [hp, ha, ih answers.tail]

theorem processToolCalls_turns_length (reg : Registry) (calls : List ToolCall)
    (answers : List String) :
    (processToolCalls reg calls answers).turns.length
      = (calls.filter (fun tc => (resolveTool reg tc.function.name).isSome)).length := by
  induction calls generalizing answers with
  | nil => rfl
  | cons tc rest ih =>
    unfold processToolCalls
    cases hres : resolveTool reg tc.function.name with
    | none => simp [List.filter_cons, hres, ih answers]
    | some tool =>
      cases hp : tool.requiresPermission with
      | false => simp [List.filter_cons, hres, hp, ih answers]
      | true =>
        cases ha : askPermission (answers.head?.getD "") with
        | false => simp [List.filter_cons, hres, hp, ha, ih answers.tail]
        | true => simp [List.filter_cons, hres, hp, ha, ih answers.tail]

theorem processToolCalls_turns_role (reg : Registry) (calls : List ToolCall)
    (answers : List String) :
    ∀ m ∈ (processToolCalls reg calls answers).turns, m.role = "tool" := by
  induction calls generalizing answers with
  | nil => intro m hm; simp [processToolCalls] at hm
  | cons tc rest ih =>
    intro m hm
    unfold processToolCalls at hm
    cases hres : resolveTool reg tc.function.name with
    | none => rw [hres] at hm; exact ih answers m hm
    | some tool =>
      rw [hres] at hm
      cases hp : tool.requiresPermission with
      | false =>
        simp [hp] at hm
        rcases hm with h | h
        · rw [h]; rfl
        · exact ih answers m h
      | true =>
        cases ha : askPermission (answers.head?.getD "") with
        | false =>
          simp [hp, ha] at hm
          rcases hm with h | h
          · rw [h]; rfl
          · exact ih answers.tail m h
        | true =>
          simp [hp, ha] at hm
          rcases hm with h | h
          · rw [h]; rfl
          · exact ih answers.tail m h

/-- The success case of one round-trip: with no transport error reported,
the step appends the assembled assistant message and the dispatch loop's
tool turns, and continues iff tools ran and none required permission. -/
theorem processOneResponse_ok (a : Agent) (lines : List StreamLine) (readErr : Option String)
    (answers : List String)
    (h : (processOneResponse a (Transport.stream lines readErr) answers).error = none) :
    processOneResponse a (Transport.stream lines readErr) answers =
      { agent := { a with conversation := a.conversation
            ++ (runStream lines emptyMessage).1
              :: (processToolCalls a.tools (runStream lines emptyMessage).1.toolCalls answers).turns }
        shouldContinue :=
          (processToolCalls a.tools (runStream lines emptyMessage).1.toolCalls answers).toolsExecuted > 0
            && !(processToolCalls a.tools (runStream lines emptyMessage).1.toolCalls answers).anyToolRequiredPermission
        error := none
        executed := (processToolCalls a.tools (runStream lines emptyMessage).1.toolCalls answers).executed } := by
  cases readErr with
  | none => rfl
  | some e =>
    by_cases hd : (runStream lines emptyMessage).2 = true
    · unfold processOneResponse
      simp [hd]
    · unfold processOneResponse at h
      simp only [Bool.not_eq_true] at hd
      simp [hd] at h

/-- C1 counterexample: an assistant turn carrying one invocation of a name
absent from the registry gets zero tool-role turns appended after it, not
one — unknown-tool invocations are skipped without a turn. -/
theorem tool_turn_per_invocation_counterexample :
    ghostResp.message.toolCalls.length = 1 ∧
    ((processOneResponse { tools := [], conversation := [] }
        (Transport.stream [StreamLine.chunk ghostResp] none) []).agent.conversation.filter
        (fun m => m.role == "tool")).length ≠ ghostResp.message.toolCalls.length := by
  constructor
  · rfl
  · decide

/-- C1 (amended): within one loop iteration, the tool-role turns appended
after the assistant turn are exactly one per invocation that resolves to a
registered tool — in invocation order, each either the result turn or the
denial turn as the spec describes — while invocations naming unknown tools
are skipped with no turn appended. -/
theorem tool_turns_match_resolvable_invocations (reg : Registry) (calls : List ToolCall)
    (answers : List String) :
    (processToolCalls reg calls answers).turns = specToolTurns reg calls answers ∧
    (processToolCalls reg calls answers).turns.length
      = (calls.filter (fun tc => (resolveTool reg tc.function.name).isSome)).length ∧
    ∀ m ∈ (processToolCalls reg calls answers).turns, m.role = "tool" :=
  ⟨processToolCalls_turns_eq_spec reg calls answers,
   processToolCalls_turns_length reg calls answers,
   processToolCalls_turns_role reg calls answers⟩

/-- C2: an error-free round-trip decides to issue another round-trip iff at
least one tool was actually executed and no invocation in the round
resolved to a permission-requiring tool; in particular an assistant turn
with zero invocations always stops the loop. -/
theorem continue_iff_tools_executed_and_unprivileged (a : Agent) (lines : List StreamLine)
    (readErr : Option String) (answers : List String)
    (h : (processOneResponse a (Transport.stream lines readErr) answers).error = none) :
    ((processOneResponse a (Transport.stream lines readErr) answers).shouldContinue = true ↔
      (processOneResponse a (Transport.stream lines readErr) answers).executed ≠ [] ∧
      (runStream lines emptyMessage).1.toolCalls.any (callNeedsPermission a.tools) = false) ∧
    ((runStream lines emptyMessage).1.toolCalls = [] →
      (processOneResponse a (Transport.stream lines readErr) answers).shouldContinue = false) := by
  rw [processOneResponse_ok a lines readErr answers h]
  constructor
  · simp only [processToolCalls_toolsExecuted_eq, processToolCalls_anyPerm]
    constructor
    · intro hc
      simp only [Bool.and_eq_true, decide_eq_true_eq, Bool.not_eq_true'] at hc
      exact ⟨by simpa [← List.length_pos_iff_ne_nil] using hc.1, hc.2⟩
    · intro ⟨h1, h2⟩
      simp only [Bool.and_eq_true, decide_eq_true_eq, Bool.not_eq_true']
      exact ⟨by simpa [List.length_pos_iff_ne_nil] using h1, h2⟩
  · intro hnil
    simp [hnil, processToolCalls]

theorem continue_iff_witness :
    (processOneResponse { tools := [], conversation := [] }
        (Transport.stream [] none) []).error = none ∧
    (((processOneResponse { tools := [], conversation := [] }
        (Transport.stream [] none) []).shouldContinue = true ↔
      (processOneResponse { tools := [], conversation := [] }
        (Transport.stream [] none) []).executed ≠ [] ∧
      (runStream [] emptyMessage).1.toolCalls.any
        (callNeedsPermission ([] : Registry)) = false) ∧
    ((runStream [] emptyMessage).1.toolCalls = [] →
      (processOneResponse { tools := [], conversation := [] }
        (Transport.stream [] none) []).shouldContinue = false)) :=
  ⟨rfl, continue_iff_tools_executed_and_unprivileged { tools := [], conversation := [] } [] none [] rfl⟩

/-- C4: when a resolved invocation requires permission and the operator's
answer denies it, the round appends the explicit permission-denied tool
turn for that tool name and never calls the tool's `Execute` for it. -/
theorem denial_appends_marker_and_never_executes (reg : Registry) (tc : ToolCall)
    (rest : List ToolCall) (answers : List String) (tool : Tool)
    (hres : resolveTool reg tc.function.name = some tool)
    (hperm : tool.requiresPermission = true)
    (hdeny : askPermission (answers.head?.getD "") = false) :
    (processToolCalls reg (tc :: rest) answers).turns
      = denialTurn tc.function.name :: (processToolCalls reg rest answers.tail).turns ∧
    (processToolCalls reg (tc :: rest) answers).executed
      = (processToolCalls reg rest answers.tail).executed ∧
    (denialTurn tc.function.name).role = "tool" ∧
    (denialTurn tc.function.name).content = "Permission denied for " ++ tc.function.name := by
  refine ⟨?_, ?_, rfl, rfl⟩ <;>
    simp [processToolCalls, hres, hperm, hdeny]

theorem denial_witness :
    resolveTool spyReg spyCall.function.name = some spyTool ∧
    spyTool.requiresPermission = true ∧
    askPermission ((["no"] : List String).head?.getD "") = false ∧
    ((processToolCalls spyReg [spyCall] ["no"]).turns
      = denialTurn spyCall.function.name :: (processToolCalls spyReg [] (["no"] : List String).tail).turns ∧
    (processToolCalls spyReg [spyCall] ["no"]).executed
      = (processToolCalls spyReg [] (["no"] : List String).tail).executed ∧
    (denialTurn spyCall.function.name).role = "tool" ∧
    (denialTurn spyCall.function.name).content = "Permission denied for " ++ spyCall.function.name) :=
  ⟨rfl, rfl, by decide,
   denial_appends_marker_and_never_executes spyReg spyCall [] ["no"] spyTool rfl rfl (by decide)⟩

/-- C7: when an executed tool's `Execute` returns an error, the error text
is captured — with the distinguishing `Error: ` marker — as the content of
a normal tool-role turn, the execution still counts, and a tool failure
never makes the round-trip itself return an error. -/
theorem tool_error_captured_as_result (reg : Registry) (tc : ToolCall)
    (rest : List ToolCall) (answers : List String) (tool : Tool) (e : String)
    (hres : resolveTool reg tc.function.name = some tool)
    (hperm : tool.requiresPermission = false)
    (herr : tool.execute tc.function.arguments = .error e) :
    (processToolCalls reg (tc :: rest) answers).turns
      = toolTurn ("Error: " ++ e) :: (processToolCalls reg rest answers).turns ∧
    (toolTurn ("Error: " ++ e)).role = "tool" ∧
    (processToolCalls reg (tc :: rest) answers).toolsExecuted
      = (processToolCalls reg rest answers).toolsExecuted + 1 ∧
    (∀ a lines ans, (processOneResponse a (Transport.stream lines none) ans).error = none) := by
  refine ⟨?_, rfl, ?_, fun a lines ans => rfl⟩ <;>
    simp [processToolCalls, hres, hperm, execResult, herr]

theorem tool_error_witness :
    resolveTool failReg failCall.function.name = some failTool ∧
    failTool.requiresPermission = false ∧
    failTool.execute failCall.function.arguments = .error "file not found" ∧
    ((processToolCalls failReg [failCall] []).turns
      = toolTurn ("Error: " ++ "file not found") :: (processToolCalls failReg [] []).turns ∧
    (toolTurn ("Error: " ++ "file not found")).role = "tool" ∧
    (processToolCalls failReg [failCall] []).toolsExecuted
      = (processToolCalls failReg [] []).toolsExecuted + 1 ∧
    (∀ a lines ans, (processOneResponse a (Transport.stream lines none) ans).error = none)) :=
  ⟨rfl, rfl, rfl,
   tool_error_captured_as_result failReg failCall [] [] failTool "file not found" rfl rfl rfl⟩

/-! ## Agentic loop lemmas and remaining claims -/

theorem processOneResponse_clean_error (a : Agent) (t : Transport) (ans : List String)
    (h : cleanTransport t = true) : (processOneResponse a t ans).error = none := by
  cases t with
  | httpError e => simp [cleanTransport] at h
  | stream lines readErr =>
    cases readErr with
    | none => rfl
    | some e => simp [cleanTransport] at h

theorem processOneResponse_conversation_extends (a : Agent) (t : Transport)
    (ans : List String) :
    ∃ added, (processOneResponse a t ans).agent.conversation = a.conversation ++ added := by
  cases t with
  | httpError e => exact ⟨[], by simp [processOneResponse]⟩
  | stream lines readErr =>
    cases readErr with
    | none => exact ⟨_, rfl⟩
    | some e =>
      by_cases hd : (runStream lines emptyMessage).2 = true
      · exact ⟨(runStream lines emptyMessage).1
            :: (processToolCalls a.tools (runStream lines emptyMessage).1.toolCalls ans).turns,
          by simp [processOneResponse, hd]⟩
      · refine ⟨[], ?_⟩
        simp only [Bool.not_eq_true] at hd
        simp [processOneResponse, hd]

theorem runLoop_rounds_le (envs : Nat → Transport × List String) (i fuel : Nat) (a : Agent) :
    (runLoop envs i fuel a).2.2 ≤ fuel := by
  induction fuel generalizing i a with
  | zero => simp [runLoop]
  | succ n ih =>
    unfold runLoop
    cases he : (processOneResponse a (envs i).1 (envs i).2).error with
    | some e => simp
    | none =>
      by_cases hc : (processOneResponse a (envs i).1 (envs i).2).shouldContinue = true
      · simp only [hc, if_true]
        exact Nat.succ_le_succ (ih (i + 1) _)
      · simp only [Bool.not_eq_true] at hc
        simp [hc]

theorem runLoop_clean_no_error (envs : Nat → Transport × List String)
    (hclean : ∀ j, cleanTransport (envs j).1 = true) (i fuel : Nat) (a : Agent) :
    (runLoop envs i fuel a).2.1 = none := by
  induction fuel generalizing i a with
  | zero => rfl
  | succ n ih =>
    unfold runLoop
    have he := processOneResponse_clean_error a (envs i).1 (envs i).2 (hclean i)
    simp only [he]
    by_cases hc : (processOneResponse a (envs i).1 (envs i).2).shouldContinue = true
    · simp only [hc, if_true]
      exact ih (i + 1) _
    · simp only [Bool.not_eq_true] at hc
      simp [hc]

theorem runLoop_conversation_extends (envs : Nat → Transport × List String)
    (i fuel : Nat) (a : Agent) :
    ∃ added, (runLoop envs i fuel a).1.conversation = a.conversation ++ added := by
  induction fuel generalizing i a with
  | zero => exact ⟨[], by simp [runLoop]⟩
  | succ n ih =>
    obtain ⟨ad1, h1⟩ := processOneResponse_conversation_extends a (envs i).1 (envs i).2
    unfold runLoop
    cases he : (processOneResponse a (envs i).1 (envs i).2).error with
    | some e => exact ⟨ad1, h1⟩
    | none =>
      by_cases hc : (processOneResponse a (envs i).1 (envs i).2).shouldContinue = true
      · simp only [hc, if_true]
        obtain ⟨ad2, h2⟩ := ih (i + 1) (processOneResponse a (envs i).1 (envs i).2).agent
        exact ⟨ad1 ++ ad2, by rw [h2, h1, List.append_assoc]⟩
      · simp only [Bool.not_eq_true] at hc
        simp only [hc, Bool.false_eq_true, if_false]
        exact ⟨ad1, h1⟩

/-- C5: one user message triggers at most `maxIterations = 10` round-trips;
with a transport that never fails, `ProcessMessage` returns without error
— also when the cap is what stops it — and the conversation grows from the
prior history by the user turn plus the turns of the rounds, leaving the
state intact for the next user turn. -/
theorem process_message_bounded_rounds (a : Agent) (userMessage : String)
    (envs : Nat → Transport × List String)
    (hclean : ∀ j, cleanTransport (envs j).1 = true) :
    (ProcessMessage a userMessage envs).2.2 ≤ 10 ∧
    (ProcessMessage a userMessage envs).2.1 = none ∧
    ∃ added, (ProcessMessage a userMessage envs).1.conversation
      = a.conversation ++ userTurn userMessage :: added := by
  refine ⟨runLoop_rounds_le envs 0 maxIterations _,
          runLoop_clean_no_error envs hclean 0 maxIterations _, ?_⟩
  obtain ⟨ad, had⟩ := runLoop_conversation_extends envs 0 maxIterations
    { a with conversation := a.conversation ++ [userTurn userMessage] }
  refine ⟨ad, ?_⟩
  calc (ProcessMessage a userMessage envs).1.conversation
      = (a.conversation ++ [userTurn userMessage]) ++ ad := had
    _ = a.conversation ++ userTurn userMessage :: ad := by
        rw [List.append_assoc, List.singleton_append]

theorem process_message_bounded_rounds_witness :
    (∀ j, cleanTransport (((fun _ : Nat => (Transport.stream [] none, ([] : List String))) j).1) = true) ∧
    ((ProcessMessage { tools := [], conversation := [] } "hello"
        (fun _ : Nat => (Transport.stream [] none, ([] : List String)))).2.2 ≤ 10 ∧
     (ProcessMessage { tools := [], conversation := [] } "hello"
        (fun _ : Nat => (Transport.stream [] none, ([] : List String)))).2.1 = none ∧
     ∃ added, (ProcessMessage { tools := [], conversation := [] } "hello"
        (fun _ : Nat => (Transport.stream [] none, ([] : List String)))).1.conversation
        = ({ tools := [], conversation := [] } : Agent).conversation
            ++ userTurn "hello" :: added) :=
  ⟨fun _ => rfl,
   process_message_bounded_rounds { tools := [], conversation := [] } "hello"
     (fun _ : Nat => (Transport.stream [] none, ([] : List String))) (fun _ => rfl)⟩

/-- C6: a transport-level failure — endpoint/request failure before any
byte, or a stream read error before a `done` fragment — aborts the
round-trip with a surfaced error, leaves the conversation exactly as it was
before the call (no partial assistant turn is appended), and executes no
tool. -/
theorem transport_failure_preserves_history (a : Agent) (e : String)
    (lines : List StreamLine) (answers : List String)
    (hnodone : (runStream lines emptyMessage).2 = false) :
    (processOneResponse a (Transport.httpError e) answers).agent.conversation
      = a.conversation ∧
    (processOneResponse a (Transport.httpError e) answers).error = some e ∧
    (processOneResponse a (Transport.httpError e) answers).executed = [] ∧
    (processOneResponse a (Transport.stream lines (some e)) answers).agent.conversation
      = a.conversation ∧
    (processOneResponse a (Transport.stream lines (some e)) answers).error
      = some ("error reading stream: " ++ e) ∧
    (processOneResponse a (Transport.stream lines (some e)) answers).executed = [] := by
  refine ⟨rfl, rfl, rfl, ?_, ?_, ?_⟩ <;> simp [processOneResponse, hnodone]

theorem transport_failure_witness :
    (runStream [StreamLine.chunk partialChunk] emptyMessage).2 = false ∧
    ((processOneResponse { tools := [], conversation := [] }
        (Transport.httpError "connection refused") []).agent.conversation
        = ({ tools := [], conversation := [] } : Agent).conversation ∧
     (processOneResponse { tools := [], conversation := [] }
        (Transport.httpError "connection refused") []).error = some "connection refused" ∧
     (processOneResponse { tools := [], conversation := [] }
        (Transport.httpError "connection refused") []).executed = [] ∧
     (processOneResponse { tools := [], conversation := [] }
        (Transport.stream [StreamLine.chunk partialChunk] (some "connection refused")) []).agent.conversation
        = ({ tools := [], conversation := [] } : Agent).conversation ∧
     (processOneResponse { tools := [], conversation := [] }
        (Transport.stream [StreamLine.chunk partialChunk] (some "connection refused")) []).error
        = some ("error reading stream: " ++ "connection refused") ∧
     (processOneResponse { tools := [], conversation := [] }
        (Transport.stream [StreamLine.chunk partialChunk] (some "connection refused")) []).executed
        = []) :=
  ⟨by decide,
   transport_failure_preserves_history { tools := [], conversation := [] } "connection refused"
     [StreamLine.chunk partialChunk] [] (by decide)⟩

/-- C9: the tool catalog order is not a function of the registry state
alone — two range iterations over the same registered tools, in two orders
Go's randomized map iteration may choose, yield differently ordered
descriptor lists, so two prompt constructions in one session need not
agree. -/
theorem tool_listing_order_unstable :
    (twoToolReg.map Prod.fst).Perm ["alpha", "beta"] ∧
    (twoToolReg.map Prod.fst).Perm ["beta", "alpha"] ∧
    getToolDefinitions twoToolReg ["alpha", "beta"]
      ≠ getToolDefinitions twoToolReg ["beta", "alpha"] := by
  refine ⟨?_, ?_, ?_⟩ <;> decide

/-- C10: the permission prompt is default-allow — the empty input grants,
and in general an input grants exactly when its normalization (lowercased,
whitespace-trimmed) is `""`, `"y"`, or `"yes"`; every other input denies. -/
theorem ask_permission_default_allow (input : String) :
    askPermission "" = true ∧
    (askPermission input = true ↔
      trimSpace (toLowerStr input) = "" ∨ trimSpace (toLowerStr input) = "y"
        ∨ trimSpace (toLowerStr input) = "yes") := by
  refine ⟨rfl, ?_⟩
  unfold askPermission
  simp only [Bool.or_eq_true, beq_iff_eq, or_assoc]

end CliAiAgent
